import Mathlib

/-! Verification of the media reconciliation and album-membership logic of the
PrivatePixel photo-backup client.  All definitions below are shallow embeddings
of the first (most complete) draft of `app/(tabs)/library.tsx`: the media item
record, the Today / This week / Earlier bucketizer `groupMedia`, the timeline
filter `mediaForTimeline`, the device-scan and refresh merge updaters, and the
album store handlers (`handleCreateAlbum`, `toggleItemInActiveManualAlbum`,
`handleSetCoverForActiveAlbum`, `handleDeleteAlbum`, mode toggles).
JavaScript `Date` values are modelled as `Option Int` (milliseconds since the
epoch; `none` models an Invalid Date, whose comparisons are all false), and
JavaScript `Set` construction / add / delete are modelled on lists preserving
insertion order. -/

namespace PrivatePixel

/-- Media kind, from `type MediaType = "photo" | "video"` (library.tsx:40). -/
inductive MediaType where
  | photo
  | video
deriving DecidableEq, Repr

/-- Record origin, from `source: "mock" | "device"` (library.tsx:47).  The
source enum has no server member. -/
inductive Source where
  | mock
  | device
deriving DecidableEq, Repr

/-- A media record, from `type MediaItem` (library.tsx:42-51).  `createdAt`
holds the result of `new Date(item.createdAt)`: `some t` for a valid timestamp
in milliseconds, `none` for an Invalid Date.  The `exif` field is omitted: it
is never read by any of the logic embedded here. -/
structure MediaItem where
  id : String
  uri : String
  createdAt : Option Int
  type : MediaType
  source : Source
  width : Option Int
  height : Option Int
deriving DecidableEq, Repr

/-- Smart album identifiers, from `type AlbumId = "all" | "device" | "videos"`
(library.tsx:53). -/
inductive AlbumId where
  | all
  | device
  | videos
deriving DecidableEq, Repr

/-- A manual album, from `type ManualAlbum` (library.tsx:55-61).  Its
`createdAt` is set from `Date.now()` at creation and never read. -/
structure ManualAlbum where
  id : String
  title : String
  createdAt : Option Int
  mediaIds : List String
  coverMediaId : Option String
deriving DecidableEq, Repr

/-- The active album selection, from `type ActiveAlbum` (library.tsx:71-74);
the enclosing `Option` models its `| null` alternative. -/
inductive ActiveAlbum where
  | smart (id : AlbumId)
  | manual (id : String)
deriving DecidableEq, Repr

/-- The media-kind filter, from `useState<"all" | "photos" | "videos">`
(library.tsx:334-335). -/
inductive TypeFilter where
  | all
  | photos
  | videos
deriving DecidableEq, Repr

/-- JavaScript `created >= bound` where `created` is a `Date` that may be
invalid: every comparison with an Invalid Date (NaN value) is false. -/
def jsGE : Option Int → Int → Bool
  | none, _ => false
  | some t, b => b ≤ t

/-- Seven days in milliseconds: `weekAgo.setDate(weekAgo.getDate() - 7)`
(library.tsx:170-171) moves `todayStart` back seven calendar days, which is
exactly seven 24-hour days except across a DST shift (wall-clock effects are
outside this embedding). -/
def weekMs : Int := 7 * 86400000

/-- Time bucket labels, from `type GroupKey = "Today" | "This week" | "Earlier"`
(library.tsx:156). -/
inductive GroupKey where
  | today
  | thisWeek
  | earlier
deriving DecidableEq, Repr

/-- One emitted bucket, from `type GroupedMedia` (library.tsx:158-161). -/
structure GroupedMedia where
  group : GroupKey
  items : List MediaItem
deriving DecidableEq, Repr

/-- The bucket chosen for one item by the loop body of `groupMedia`
(library.tsx:179-185): `if (created >= todayStart) ... else if (created >=
weekAgo) ... else ...`, relative to a reference instant `todayStart`. -/
def bucketOf (todayStart : Int) (m : MediaItem) : GroupKey :=
  if jsGE m.createdAt todayStart then GroupKey.today
  else if jsGE m.createdAt (todayStart - weekMs) then GroupKey.thisWeek
  else GroupKey.earlier

/-- The three bucket arrays filled by the `for` loop of `groupMedia`
(library.tsx:173-185); each item is pushed onto exactly one bucket, in input
order. -/
def bucketsFor (todayStart : Int) : List MediaItem →
    List MediaItem × List MediaItem × List MediaItem
  | [] => ([], [], [])
  | m :: rest =>
    let (t, w, e) := bucketsFor todayStart rest
    if jsGE m.createdAt todayStart then (m :: t, w, e)
    else if jsGE m.createdAt (todayStart - weekMs) then (t, m :: w, e)
    else (t, w, m :: e)

/-- Embedding of `groupMedia` (library.tsx:163-193): fill the three buckets, then emit the
non-empty ones in the fixed order Today, This week, Earlier.  The reference
instant `todayStart` (local midnight derived from `new Date()` in the source)
is a parameter because wall-clock and timezone are outside the embedding. -/
def groupMedia (todayStart : Int) (items : List MediaItem) : List GroupedMedia :=
  let (t, w, e) := bucketsFor todayStart items
  (if t.isEmpty then [] else [⟨GroupKey.today, t⟩]) ++
  (if w.isEmpty then [] else [⟨GroupKey.thisWeek, w⟩]) ++
  (if e.isEmpty then [] else [⟨GroupKey.earlier, e⟩])

/-- Derived view of one bucket's contents: the input items whose chosen bucket
is `k`, in input order.  Used to reason about `groupMedia`. -/
def bucketItems (todayStart : Int) (items : List MediaItem) (k : GroupKey) :
    List MediaItem :=
  items.filter (fun m => bucketOf todayStart m == k)

/-- Model of `new Set(list)` iterated back into an array: keep the first
occurrence of each element, preserving insertion order (`seen` accumulates the
elements already emitted). -/
def jsDedupGo (seen : List String) : List String → List String
  | [] => []
  | a :: rest =>
    if a ∈ seen then jsDedupGo seen rest
    else a :: jsDedupGo (a :: seen) rest

/-- Model of `Array.from(new Set(l))` for a list of strings. -/
def jsDedup (l : List String) : List String := jsDedupGo [] l

/-- The `setMedia` updater inside `handleScanDevice` (library.tsx:575-579):
`const ids = new Set(prev.map((m) => m.id)); const uniqueNew = items.filter((i)
=> !ids.has(i.id)); return [...prev, ...uniqueNew]`. -/
def handleScanDeviceMerge (prev items : List MediaItem) : List MediaItem :=
  let ids := jsDedup (prev.map (fun m => m.id))
  prev ++ items.filter (fun i => !(ids.contains i.id))

/-- The record constructed by `handleRefresh` (library.tsx:499-509): id is
`String(Date.now())`, uri carries a random suffix, type is randomly photo or
video, source is mock, dimensions 400x400.  The environment-chosen values
(current time, random draw) are parameters. -/
def refreshNewItem (now : Int) (rand : Nat) (isVideo : Bool) : MediaItem :=
  { id := toString now
    uri := "https://picsum.photos/400?random=" ++ toString rand
    createdAt := some now
    type := if isVideo then MediaType.video else MediaType.photo
    source := Source.mock
    width := some 400
    height := some 400 }

/-- The `setMedia` updater inside `handleRefresh` (library.tsx:511):
`setMedia((prev) => [newItem, ...prev])` — the new record is prepended with no
id check. -/
def handleRefreshMerge (prev : List MediaItem) (now : Int) (rand : Nat)
    (isVideo : Bool) : List MediaItem :=
  refreshNewItem now rand isVideo :: prev

/-- The component state of `LibraryScreen` that the embedded handlers read and
write (library.tsx:333-358): the media collection, the type filter, the manual
albums, the active album selection, album edit mode, select-for-upload mode and
the selected ids (a `Set`, modelled as an insertion-ordered list). -/
structure LibraryState where
  media : List MediaItem
  filter : TypeFilter
  manualAlbums : List ManualAlbum
  activeAlbum : Option ActiveAlbum
  albumEditMode : Bool
  selectMode : Bool
  selectedIds : List String
deriving DecidableEq, Repr

/-- The initial screen state (library.tsx:333-358): `media` starts from the
demo seed (whose timestamps are wall-clock dependent, hence a parameter),
no manual albums, no active album, all modes off. -/
def initState (media0 : List MediaItem) : LibraryState :=
  { media := media0
    filter := TypeFilter.all
    manualAlbums := []
    activeAlbum := none
    albumEditMode := false
    selectMode := false
    selectedIds := [] }

/-- Embedding of `activeManualAlbum` (library.tsx:412-415): the manual album matching the
active selection, if any. -/
def activeManualAlbum (s : LibraryState) : Option ManualAlbum :=
  match s.activeAlbum with
  | some (ActiveAlbum.manual aid) => s.manualAlbums.find? (fun a => a.id == aid)
  | _ => none

/-- Embedding of `mediaForTimeline` (library.tsx:461-487): album filter (skipped while
editing a manual album), then media-kind filter.  No other processing happens
between the collection and the bucketizer. -/
def mediaForTimeline (s : LibraryState) : List MediaItem :=
  let base := s.media
  let base :=
    if !s.albumEditMode then
      match s.activeAlbum with
      | some (ActiveAlbum.smart AlbumId.device) =>
          base.filter (fun m => m.source == Source.device)
      | some (ActiveAlbum.smart AlbumId.videos) =>
          base.filter (fun m => m.type == MediaType.video)
      | some (ActiveAlbum.smart AlbumId.all) => base
      | some (ActiveAlbum.manual aid) =>
          match s.manualAlbums.find? (fun a => a.id == aid) with
          | some album => base.filter (fun m => album.mediaIds.contains m.id)
          | none => base
      | none => base
    else base
  match s.filter with
  | TypeFilter.photos => base.filter (fun m => m.type == MediaType.photo)
  | TypeFilter.videos => base.filter (fun m => m.type == MediaType.video)
  | TypeFilter.all => base

/-- Embedding of `handleToggleSelectMode` (library.tsx:373-382): leaving select mode clears
the selection; entering it first disables album edit mode. -/
def handleToggleSelectMode (s : LibraryState) : LibraryState :=
  if s.selectMode then { s with selectMode := false, selectedIds := [] }
  else { s with albumEditMode := false, selectMode := true }

/-- Embedding of `handleCreateAlbum` (library.tsx:589-604): title is `Album N` with
`N = manualAlbums.length + 1`, id is `manual-${Date.now()}` (the clock value
`now` is a parameter), membership starts empty with no cover; the new album
becomes active, edit mode turns on, select mode turns off. -/
def handleCreateAlbum (s : LibraryState) (now : Int) : LibraryState :=
  let index := s.manualAlbums.length + 1
  let newAlbum : ManualAlbum :=
    { id := "manual-" ++ toString now
      title := "Album " ++ toString index
      createdAt := some now
      mediaIds := []
      coverMediaId := none }
  { s with manualAlbums := s.manualAlbums ++ [newAlbum]
           activeAlbum := some (ActiveAlbum.manual newAlbum.id)
           albumEditMode := true
           selectMode := false
           selectedIds := [] }

/-- Embedding of `handlePressAlbum` (library.tsx:607-623): switching albums exits edit and
select modes; pressing the smart album "all" clears the active selection. -/
def handlePressAlbum (s : LibraryState) (album : ActiveAlbum) : LibraryState :=
  let s := { s with albumEditMode := false, selectMode := false, selectedIds := [] }
  match album with
  | ActiveAlbum.smart AlbumId.all => { s with activeAlbum := none }
  | ActiveAlbum.smart sid => { s with activeAlbum := some (ActiveAlbum.smart sid) }
  | ActiveAlbum.manual mid => { s with activeAlbum := some (ActiveAlbum.manual mid) }

/-- Embedding of `toggleAlbumEditMode` (library.tsx:626-637): no-op without an active manual
album; entering edit mode disables select mode and clears the selection. -/
def toggleAlbumEditMode (s : LibraryState) : LibraryState :=
  match activeManualAlbum s with
  | none => s
  | some _ =>
    let next := !s.albumEditMode
    if next then { s with albumEditMode := next, selectMode := false, selectedIds := [] }
    else { s with albumEditMode := next }

/-- Embedding of `toggleItemInActiveManualAlbum` (library.tsx:640-652): flip membership of
`mediaId` in the active album via a `Set` round-trip; `coverMediaId` is left
untouched. -/
def toggleItemInActiveManualAlbum (s : LibraryState) (mediaId : String) :
    LibraryState :=
  match activeManualAlbum s with
  | none => s
  | some act =>
    { s with manualAlbums := s.manualAlbums.map (fun a =>
        if a.id == act.id then
          let set := jsDedup a.mediaIds
          if mediaId ∈ set then
            { a with mediaIds := set.filter (fun x => x != mediaId) }
          else { a with mediaIds := set ++ [mediaId] }
        else a) }

/-- Embedding of `handleSetCoverForActiveAlbum` (library.tsx:655-670): add `mediaId` to the
membership `Set` and set it as the cover. -/
def handleSetCoverForActiveAlbum (s : LibraryState) (mediaId : String) :
    LibraryState :=
  match activeManualAlbum s with
  | none => s
  | some act =>
    { s with manualAlbums := s.manualAlbums.map (fun a =>
        if a.id == act.id then
          let set := jsDedup a.mediaIds
          let set := if mediaId ∈ set then set else set ++ [mediaId]
          { a with mediaIds := set, coverMediaId := some mediaId }
        else a) }

/-- Embedding of `handleConfirmRenameAlbum` (library.tsx:679-695): a rename whose text trims
to empty is a no-op, otherwise the active album's title is replaced. -/
def handleConfirmRenameAlbum (s : LibraryState) (renameText : String) :
    LibraryState :=
  match activeManualAlbum s with
  | none => s
  | some act =>
    let trimmed := renameText.trim
    if trimmed = "" then s
    else { s with manualAlbums := s.manualAlbums.map (fun a =>
            if a.id == act.id then { a with title := trimmed } else a) }

/-- The confirmed branch of `handleDeleteAlbum` (library.tsx:697-718): remove
the active manual album from the album list, clear the active selection, leave
edit mode; the media collection is not touched. -/
def handleDeleteAlbum (s : LibraryState) : LibraryState :=
  match activeManualAlbum s with
  | none => s
  | some act =>
    { s with manualAlbums := s.manualAlbums.filter (fun a => a.id != act.id)
             activeAlbum := none
             albumEditMode := false }

/-- One user-level operation on the library state, dispatching to the handlers
above. -/
inductive Op where
  | create (now : Int)
  | press (album : ActiveAlbum)
  | toggleSelect
  | toggleEdit
  | toggleMembership (mediaId : String)
  | setCover (mediaId : String)
  | deleteAlbum
  | rename (text : String)
deriving DecidableEq, Repr

/-- Apply one operation. -/
def step (s : LibraryState) : Op → LibraryState
  | Op.create now => handleCreateAlbum s now
  | Op.press a => handlePressAlbum s a
  | Op.toggleSelect => handleToggleSelectMode s
  | Op.toggleEdit => toggleAlbumEditMode s
  | Op.toggleMembership m => toggleItemInActiveManualAlbum s m
  | Op.setCover m => handleSetCoverForActiveAlbum s m
  | Op.deleteAlbum => handleDeleteAlbum s
  | Op.rename t => handleConfirmRenameAlbum s t

/-- Apply a sequence of operations from left to right. -/
def run (s : LibraryState) (ops : List Op) : LibraryState := ops.foldl step s

/-- Mode-exclusion invariant: album edit mode and select-for-upload mode are
never both on. -/
def modesExclusive (s : LibraryState) : Prop :=
  s.albumEditMode = false ∨ s.selectMode = false

/-- Membership invariant: every manual album holds each media id at most once. -/
def albumsNodup (s : LibraryState) : Prop :=
  ∀ a ∈ s.manualAlbums, a.mediaIds.Nodup

/-- A device-origin record with a 100x100 duplicate key (fixture). -/
def dupDevice : MediaItem :=
  { id := "device-1", uri := "u1", createdAt := some 1700000000000
    type := MediaType.photo, source := Source.device
    width := some 100, height := some 100 }

/-- A mock-origin record sharing `dupDevice`'s whole-second timestamp and
100x100 dimensions, under a different id (fixture). -/
def dupMock : MediaItem :=
  { id := "mock-1", uri := "u2", createdAt := some 1700000000000
    type := MediaType.photo, source := Source.mock
    width := some 100, height := some 100 }

/-- A library state holding the two duplicate-key records with no active album
and the type filter on "all" (fixture). -/
def dupState : LibraryState :=
  { media := [dupDevice, dupMock], filter := TypeFilter.all, manualAlbums := []
    activeAlbum := none, albumEditMode := false, selectMode := false
    selectedIds := [] }

/-- A record whose id is the string "5" (fixture). -/
def idFiveItem : MediaItem :=
  { id := "5", uri := "ua", createdAt := some 0
    type := MediaType.photo, source := Source.mock
    width := some 400, height := some 400 }

/-- A device record whose id is the string "6" (fixture). -/
def idSixItem : MediaItem :=
  { id := "6", uri := "ub", createdAt := some 0
    type := MediaType.photo, source := Source.device
    width := some 400, height := some 400 }

/-- A record whose `createdAt` failed to parse (Invalid Date) (fixture). -/
def badItem : MediaItem :=
  { id := "bad", uri := "u", createdAt := none
    type := MediaType.photo, source := Source.mock
    width := none, height := none }

/-- A record timestamped exactly at the reference instant 0 (fixture). -/
def boundaryItem : MediaItem :=
  { id := "t0", uri := "u", createdAt := some 0
    type := MediaType.photo, source := Source.mock
    width := none, height := none }

/-- The album produced by the first creation from the initial state at clock
value 1 (fixture). -/
def freshAlbum1 : ManualAlbum :=
  { id := "manual-1", title := "Album 1", createdAt := some 1
    mediaIds := [], coverMediaId := none }

/-- The same album after "m5" is set as its cover (fixture). -/
def coverAlbum1 : ManualAlbum :=
  { id := "manual-1", title := "Album 1", createdAt := some 1
    mediaIds := ["m5"], coverMediaId := some "m5" }

/-- Unfolding equation for the device-scan merge. -/
theorem handleScanDeviceMerge_eq (prev items : List MediaItem) :
    handleScanDeviceMerge prev items =
      prev ++ items.filter
        (fun i => !((jsDedup (prev.map (fun m => m.id))).contains i.id)) := rfl

/-- Membership in the set-accumulator dedup. -/
theorem mem_jsDedupGo {a : String} {seen l : List String} :
    a ∈ jsDedupGo seen l ↔ a ∈ l ∧ a ∉ seen := by
  induction l generalizing seen with
  | nil => simp [jsDedupGo]
  | cons b rest ih =>
    simp only [jsDedupGo]
    split
    · rename_i hb
      rw [ih]
      constructor
      · rintro ⟨h1, h2⟩
        exact ⟨List.mem_cons_of_mem _ h1, h2⟩
      · rintro ⟨h1, h2⟩
        rcases List.mem_cons.mp h1 with rfl | h1
        · exact absurd hb h2
        · exact ⟨h1, h2⟩
    · rename_i hb
      constructor
      · intro h
        rcases List.mem_cons.mp h with rfl | h
        · exact ⟨List.mem_cons_self a rest, hb⟩
        · obtain ⟨h1, h2⟩ := ih.mp h
          refine ⟨List.mem_cons_of_mem _ h1, fun hs => h2 (List.mem_cons_of_mem _ hs)⟩
      · rintro ⟨h1, h2⟩
        rcases List.mem_cons.mp h1 with rfl | h1
        · exact List.mem_cons_self a _
        · by_cases hab : a = b
          · subst hab; exact List.mem_cons_self a _
          · exact List.mem_cons_of_mem _ (ih.mpr ⟨h1, by
              intro hs
              rcases List.mem_cons.mp hs with h | h
              · exact hab h
              · exact h2 h⟩)

/-- Membership is preserved by the `Set` round-trip. -/
theorem mem_jsDedup {a : String} {l : List String} : a ∈ jsDedup l ↔ a ∈ l := by
  simp [jsDedup, mem_jsDedupGo]

/-- The set-accumulator dedup never emits an element of `seen`, and never emits
an element twice. -/
theorem nodup_jsDedupGo (seen l : List String) : (jsDedupGo seen l).Nodup := by
  induction l generalizing seen with
  | nil => simp [jsDedupGo]
  | cons b rest ih =>
    simp only [jsDedupGo]
    split
    · exact ih seen
    · refine List.nodup_cons.mpr ⟨fun hb => ?_, ih (b :: seen)⟩
      exact (mem_jsDedupGo.mp hb).2 (List.mem_cons_self b seen)

/-- The `Set` round-trip yields a duplicate-free list. -/
theorem nodup_jsDedup (l : List String) : (jsDedup l).Nodup := nodup_jsDedupGo [] l

/-- C1 (counterexample): the timeline pipeline performs no deduplication.  On a
collection of exactly two records with identical `createdAt` and identical
100x100 dimensions but different ids and different source origins, with no
active album and the type filter on "all", `mediaForTimeline` returns both
records instead of collapsing them to the higher-priority one. -/
theorem c1_no_dedup_counterexample :
    mediaForTimeline dupState = [dupDevice, dupMock]
    ∧ dupDevice.createdAt = dupMock.createdAt
    ∧ dupDevice.width = dupMock.width
    ∧ dupDevice.height = dupMock.height
    ∧ dupDevice.id ≠ dupMock.id
    ∧ dupDevice.source ≠ dupMock.source := by decide

/-- C1 (amended): the timeline pipeline applies only the album filter and the
media-kind filter; it never merges records.  With no active album and the type
filter on "all", the output is the entire media collection, so records sharing
a dedup key (equal timestamp and dimensions) all remain. -/
theorem c1_no_dedup (s : LibraryState) (h1 : s.activeAlbum = none)
    (h2 : s.filter = TypeFilter.all) : mediaForTimeline s = s.media := by
  simp [mediaForTimeline, h1, h2]

/-- C1 (witness): the amended statement evaluated on the duplicate-pair
state. -/
theorem c1_no_dedup_witness : mediaForTimeline dupState = dupState.media :=
  c1_no_dedup dupState rfl rfl

/-- C3 (counterexample): the refresh ("server sync demo") updater prepends its
freshly built record even when a record with the same id "5" is already in the
collection, so the two merge paths do not share the drop-existing/append-new
semantics; the device-scan merge on the same collection drops the known id and
appends the new id "6" at the end. -/
theorem c3_merge_counterexample :
    (handleRefreshMerge [idFiveItem] 5 1 false).map (fun m => m.id) = ["5", "5"]
    ∧ (handleScanDeviceMerge [idFiveItem] [idFiveItem, idSixItem]).map
        (fun m => m.id) = ["5", "6"] := by decide

/-- C3 (amended): the device-scan merge keeps the existing collection as an
unmodified initial segment, appends incoming records whose id is new, and drops
incoming records whose id is already present (their id count is unchanged);
the refresh path instead unconditionally prepends one freshly constructed mock
record with no id check. -/
theorem c3_merge_semantics (prev items : List MediaItem) (now : Int)
    (rand : Nat) (isVideo : Bool) :
    ((handleScanDeviceMerge prev items).take prev.length = prev)
    ∧ (∀ i ∈ items,
        ((jsDedup (prev.map (fun m => m.id))).contains i.id) = false →
        i ∈ handleScanDeviceMerge prev items)
    ∧ (∀ i ∈ items,
        ((jsDedup (prev.map (fun m => m.id))).contains i.id) = true →
        (handleScanDeviceMerge prev items).countP (fun m => m.id == i.id)
          = prev.countP (fun m => m.id == i.id))
    ∧ handleRefreshMerge prev now rand isVideo
        = refreshNewItem now rand isVideo :: prev := by
  refine ⟨?_, ?_, ?_, rfl⟩
  · rw [handleScanDeviceMerge_eq]
    exact List.take_left prev _
  · intro i hi hc
    rw [handleScanDeviceMerge_eq, List.mem_append]
    right
    rw [List.mem_filter]
    exact ⟨hi, by rw [hc]; rfl⟩
  · intro i hi hc
    rw [handleScanDeviceMerge_eq, List.countP_append]
    have hzero : (items.filter
        (fun j => !((jsDedup (prev.map (fun m => m.id))).contains j.id))).countP
          (fun m => m.id == i.id) = 0 := by
      rw [List.countP_eq_zero]
      intro j hj hji
      obtain ⟨-, hjq⟩ := List.mem_filter.mp hj
      have hjid : j.id = i.id := by simpa using hji
      rw [hjid] at hjq
      rw [hc] at hjq
      simp at hjq
    rw [hzero]
    exact Nat.add_zero _

/-- C3 (witness): the amended statement evaluated on a one-record collection
and a one-record incoming batch with a fresh id. -/
theorem c3_merge_semantics_witness :
    idSixItem ∈ handleScanDeviceMerge [idFiveItem] [idSixItem] :=
  (c3_merge_semantics [idFiveItem] [idSixItem] 0 0 false).2.1 idSixItem
    (by decide) (by decide)

/-- C4: the device-scan merge is idempotent — merging the same batch twice
equals merging it once. -/
theorem c4_merge_idempotent (prev items : List MediaItem) :
    handleScanDeviceMerge (handleScanDeviceMerge prev items) items
      = handleScanDeviceMerge prev items := by
  have key : ∀ i ∈ items,
      i.id ∈ (handleScanDeviceMerge prev items).map (fun m => m.id) := by
    intro i hi
    rw [handleScanDeviceMerge_eq, List.map_append, List.mem_append]
    by_cases hc : i.id ∈ prev.map (fun m => m.id)
    · exact Or.inl hc
    · right
      apply List.mem_map_of_mem
      rw [List.mem_filter]
      refine ⟨hi, ?_⟩
      simp [mem_jsDedup, hc]
  have hfilter : items.filter (fun i =>
      !((jsDedup ((handleScanDeviceMerge prev items).map
          (fun m => m.id))).contains i.id)) = [] := by
    rw [List.filter_eq_nil_iff]
    intro a ha
    simp [mem_jsDedup, key a ha]
  rw [handleScanDeviceMerge_eq (handleScanDeviceMerge prev items), hfilter,
    List.append_nil]

/-- C6 (counterexample): the auto-generated title number is the current album
count plus one, so it is reused after a deletion.  Creating two albums yields
"Album 1" and "Album 2"; after deleting the second, the next creation is titled
"Album 2" again — not strictly larger than every earlier creation's number. -/
theorem c6_title_counterexample :
    (run (initState []) [Op.create 1, Op.create 2]).manualAlbums.map
        (fun a => (a.id, a.title))
      = [("manual-1", "Album 1"), ("manual-2", "Album 2")]
    ∧ (run (initState [])
         [Op.create 1, Op.create 2, Op.deleteAlbum, Op.create 3]).manualAlbums.map
        (fun a => (a.id, a.title))
      = [("manual-1", "Album 1"), ("manual-3", "Album 2")] := by decide

/-- C6 (amended): every album created by `handleCreateAlbum` is titled
"Album N" with N equal to the number of manual albums currently in the list
plus one, starts with empty membership and no cover; two consecutive creations
(no intervening deletion) get the strictly increasing numbers N and N+1, and
two consecutive creations from the initial state yield "Album 1" and
"Album 2", each with empty `mediaIds` and no `coverMediaId`. -/
theorem c6_album_titles (s : LibraryState) (now n1 n2 : Int)
    (media0 : List MediaItem) :
    ((handleCreateAlbum s now).manualAlbums = s.manualAlbums ++
      [{ id := "manual-" ++ toString now
         title := "Album " ++ toString (s.manualAlbums.length + 1)
         createdAt := some now, mediaIds := [], coverMediaId := none }])
    ∧ ((handleCreateAlbum (handleCreateAlbum s n1) n2).manualAlbums.map
          (fun a => a.title)
        = s.manualAlbums.map (fun a => a.title) ++
          ["Album " ++ toString (s.manualAlbums.length + 1),
           "Album " ++ toString (s.manualAlbums.length + 2)])
    ∧ ((run (initState media0) [Op.create n1, Op.create n2]).manualAlbums.map
          (fun a => (a.title, a.mediaIds, a.coverMediaId))
        = [("Album 1", [], none), ("Album 2", [], none)]) := by
  refine ⟨rfl, ?_, ?_⟩
  · simp [handleCreateAlbum]
  · simp [run, step, handleCreateAlbum, initState]
    exact ⟨rfl, rfl⟩

/-- C7: deleting the active manual album leaves the media collection untouched,
removes exactly the albums bearing its id from the album list (every other
album survives unchanged), and resets the active selection to "All" (no
selection). -/
theorem c7_delete_album_frame (s : LibraryState) (a : ManualAlbum)
    (h : activeManualAlbum s = some a) :
    (handleDeleteAlbum s).media = s.media
    ∧ (handleDeleteAlbum s).manualAlbums
        = s.manualAlbums.filter (fun b => b.id != a.id)
    ∧ (handleDeleteAlbum s).activeAlbum = none
    ∧ (∀ b ∈ s.manualAlbums, b.id ≠ a.id →
        b ∈ (handleDeleteAlbum s).manualAlbums) := by
  simp only [handleDeleteAlbum, h]
  refine ⟨trivial, trivial, trivial, ?_⟩
  intro b hb hne
  rw [List.mem_filter]
  exact ⟨hb, by simp [hne]⟩

/-- C7 (witness): deleting the album created from the initial state clears the
active selection and keeps the media collection. -/
theorem c7_delete_album_frame_witness :
    (handleDeleteAlbum (run (initState []) [Op.create 1])).activeAlbum = none
    ∧ (handleDeleteAlbum (run (initState []) [Op.create 1])).media
        = (run (initState []) [Op.create 1]).media :=
  ⟨(c7_delete_album_frame (run (initState []) [Op.create 1]) freshAlbum1
      (by decide)).2.2.1,
   (c7_delete_album_frame (run (initState []) [Op.create 1]) freshAlbum1
      (by decide)).1⟩

/-- C2 (counterexample): after `setCover "m1"` followed by
`toggleMembership "m1"` on a fresh album, the album's `coverMediaId` is still
`some "m1"` while its `mediaIds` is empty — the cover invariant does not hold
after this setCover/toggleMembership sequence. -/
theorem c2_cover_counterexample :
    (run (initState [])
        [Op.create 1, Op.setCover "m1", Op.toggleMembership "m1"]).manualAlbums.map
      (fun a => (a.coverMediaId, a.mediaIds)) = [(some "m1", [])] := by decide

/-- C2 (amended): `handleSetCoverForActiveAlbum` itself establishes the
invariant — immediately after it runs, every album bearing the active album's
id has `coverMediaId = some mediaId` and `mediaId ∈ mediaIds` (setting a cover
implicitly adds membership); the invariant is only broken later when
`toggleItemInActiveManualAlbum` removes the cover id without clearing
`coverMediaId`. -/
theorem c2_cover_after_setCover (s : LibraryState) (mediaId : String)
    (act : ManualAlbum) (h : activeManualAlbum s = some act) :
    ∀ b ∈ (handleSetCoverForActiveAlbum s mediaId).manualAlbums,
      b.id = act.id → b.coverMediaId = some mediaId ∧ mediaId ∈ b.mediaIds := by
  intro b hb hid
  simp only [handleSetCoverForActiveAlbum, h] at hb
  rw [List.mem_map] at hb
  obtain ⟨a, ha, rfl⟩ := hb
  by_cases haid : (a.id == act.id) = true
  · rw [if_pos haid]
    refine ⟨rfl, ?_⟩
    by_cases hm : mediaId ∈ jsDedup a.mediaIds
    · simp [hm]
    · simp [hm]
  · rw [if_neg haid] at hid ⊢
    exact absurd (beq_iff_eq.mpr hid) haid

/-- C2 (witness): setting cover "m5" on a fresh album yields
`coverMediaId = some "m5"` with "m5" a member. -/
theorem c2_cover_after_setCover_witness :
    coverAlbum1.coverMediaId = some "m5" ∧ "m5" ∈ coverAlbum1.mediaIds :=
  c2_cover_after_setCover (run (initState []) [Op.create 1]) "m5"
    freshAlbum1 (by decide) coverAlbum1 (by decide) (by decide)

/-- Every operation preserves the mode-exclusion invariant. -/
theorem step_preserves_modesExclusive (s : LibraryState) (op : Op)
    (h : modesExclusive s) : modesExclusive (step s op) := by
  cases op with
  | create now => exact Or.inr rfl
  | press a =>
    cases a with
    | smart sid => cases sid <;> exact Or.inr rfl
    | manual mid => exact Or.inr rfl
  | toggleSelect =>
    by_cases hs : s.selectMode
    · simp [step, handleToggleSelectMode, hs, modesExclusive]
    · simp [step, handleToggleSelectMode, hs, modesExclusive]
  | toggleEdit =>
    cases hact : activeManualAlbum s with
    | none => simpa [step, toggleAlbumEditMode, hact] using h
    | some a =>
      by_cases he : s.albumEditMode
      · simp [step, toggleAlbumEditMode, hact, he, modesExclusive]
      · simp [step, toggleAlbumEditMode, hact, he, modesExclusive]
  | toggleMembership m =>
    cases hact : activeManualAlbum s with
    | none => simpa [step, toggleItemInActiveManualAlbum, hact] using h
    | some a =>
      simpa [step, toggleItemInActiveManualAlbum, hact, modesExclusive] using h
  | setCover m =>
    cases hact : activeManualAlbum s with
    | none => simpa [step, handleSetCoverForActiveAlbum, hact] using h
    | some a =>
      simpa [step, handleSetCoverForActiveAlbum, hact, modesExclusive] using h
  | deleteAlbum =>
    cases hact : activeManualAlbum s with
    | none => simpa [step, handleDeleteAlbum, hact] using h
    | some a => simp [step, handleDeleteAlbum, hact, modesExclusive]
  | rename t =>
    cases hact : activeManualAlbum s with
    | none => simpa [step, handleConfirmRenameAlbum, hact] using h
    | some a =>
      by_cases ht : t.trim = ""
      · simpa [step, handleConfirmRenameAlbum, hact, ht] using h
      · simpa [step, handleConfirmRenameAlbum, hact, ht, modesExclusive] using h

/-- Any operation sequence preserves the mode-exclusion invariant. -/
theorem run_preserves_modesExclusive (s : LibraryState) (ops : List Op)
    (h : modesExclusive s) : modesExclusive (run s ops) := by
  induction ops generalizing s with
  | nil => exact h
  | cons op rest ih => exact ih (step s op) (step_preserves_modesExclusive s op h)

/-- C8: in every state reachable from the initial state via the library
operations, album edit mode and select-for-upload mode are never both active;
entering select mode forces album edit mode off, entering album edit mode (on
an active manual album) forces select mode off, and creating an album enters
edit mode with select mode off. -/
theorem c8_modes_mutually_exclusive (media0 : List MediaItem) (ops : List Op) :
    ((run (initState media0) ops).albumEditMode = false
      ∨ (run (initState media0) ops).selectMode = false)
    ∧ (∀ s : LibraryState, s.selectMode = false →
        (handleToggleSelectMode s).selectMode = true
        ∧ (handleToggleSelectMode s).albumEditMode = false)
    ∧ (∀ (s : LibraryState) (a : ManualAlbum), activeManualAlbum s = some a →
        s.albumEditMode = false →
        (toggleAlbumEditMode s).albumEditMode = true
        ∧ (toggleAlbumEditMode s).selectMode = false)
    ∧ (∀ (s : LibraryState) (now : Int),
        (handleCreateAlbum s now).albumEditMode = true
        ∧ (handleCreateAlbum s now).selectMode = false) := by
  refine ⟨run_preserves_modesExclusive _ ops (Or.inl rfl), ?_, ?_,
    fun s now => ⟨rfl, rfl⟩⟩
  · intro s hs
    constructor <;> simp [handleToggleSelectMode, hs]
  · intro s a ha he
    constructor <;> simp [toggleAlbumEditMode, ha, he]

/-- C8 (witness): re-entering edit mode on the album created from the initial
state turns edit mode on and select mode off. -/
theorem c8_modes_mutually_exclusive_witness :
    (toggleAlbumEditMode (run (initState []) [Op.create 1, Op.toggleEdit])).albumEditMode
        = true
    ∧ (toggleAlbumEditMode (run (initState []) [Op.create 1, Op.toggleEdit])).selectMode
        = false :=
  (c8_modes_mutually_exclusive [] []).2.2.1
    (run (initState []) [Op.create 1, Op.toggleEdit]) freshAlbum1
    (by decide) (by decide)

/-- Every operation preserves duplicate-freeness of all album memberships. -/
theorem step_preserves_albumsNodup (s : LibraryState) (op : Op)
    (h : albumsNodup s) : albumsNodup (step s op) := by
  cases op with
  | create now =>
    intro a ha
    simp only [step, handleCreateAlbum, List.mem_append, List.mem_singleton] at ha
    rcases ha with ha | ha
    · exact h a ha
    · subst ha; exact List.nodup_nil
  | press a =>
    intro b hb
    cases a with
    | smart sid => cases sid <;> exact h b hb
    | manual mid => exact h b hb
  | toggleSelect =>
    intro b hb
    by_cases hs : s.selectMode
    · simp [step, handleToggleSelectMode, hs] at hb; exact h b hb
    · simp [step, handleToggleSelectMode, hs] at hb; exact h b hb
  | toggleEdit =>
    intro b hb
    cases hact : activeManualAlbum s with
    | none => simp only [step, toggleAlbumEditMode, hact] at hb; exact h b hb
    | some a0 =>
      by_cases he : s.albumEditMode
      · simp [step, toggleAlbumEditMode, hact, he] at hb; exact h b hb
      · simp [step, toggleAlbumEditMode, hact, he] at hb; exact h b hb
  | toggleMembership m =>
    intro b hb
    cases hact : activeManualAlbum s with
    | none =>
      simp only [step, toggleItemInActiveManualAlbum, hact] at hb
      exact h b hb
    | some act =>
      simp only [step, toggleItemInActiveManualAlbum, hact, List.mem_map] at hb
      obtain ⟨a0, ha0, rfl⟩ := hb
      by_cases hid : (a0.id == act.id) = true
      · rw [if_pos hid]
        split
      -- membership toggle: either the filtered set or the set with m appended
        · exact List.Nodup.filter _ (nodup_jsDedup _)
        · rename_i hm
          refine List.nodup_append.mpr
            ⟨nodup_jsDedup _, List.nodup_singleton m, fun x hx hxm => ?_⟩
          rw [List.mem_singleton] at hxm
          subst hxm
          exact hm hx
      · rw [if_neg hid]; exact h a0 ha0
  | setCover m =>
    intro b hb
    cases hact : activeManualAlbum s with
    | none =>
      simp only [step, handleSetCoverForActiveAlbum, hact] at hb
      exact h b hb
    | some act =>
      simp only [step, handleSetCoverForActiveAlbum, hact, List.mem_map] at hb
      obtain ⟨a0, ha0, rfl⟩ := hb
      by_cases hid : (a0.id == act.id) = true
      · rw [if_pos hid]
        split
        · exact nodup_jsDedup _
        · rename_i hm
          refine List.nodup_append.mpr
            ⟨nodup_jsDedup _, List.nodup_singleton m, fun x hx hxm => ?_⟩
          rw [List.mem_singleton] at hxm
          subst hxm
          exact hm hx
      · rw [if_neg hid]; exact h a0 ha0
  | deleteAlbum =>
    intro b hb
    cases hact : activeManualAlbum s with
    | none => simp only [step, handleDeleteAlbum, hact] at hb; exact h b hb
    | some act =>
      simp only [step, handleDeleteAlbum, hact] at hb
      exact h b (List.mem_filter.mp hb).1
  | rename t =>
    intro b hb
    cases hact : activeManualAlbum s with
    | none => simp only [step, handleConfirmRenameAlbum, hact] at hb; exact h b hb
    | some act =>
      by_cases ht : t.trim = ""
      · simp [step, handleConfirmRenameAlbum, hact, ht] at hb; exact h b hb
      · simp only [step, handleConfirmRenameAlbum, hact, List.mem_map] at hb
        rw [if_neg ht] at hb
        rw [List.mem_map] at hb
        obtain ⟨a0, ha0, rfl⟩ := hb
        by_cases hid : (a0.id == act.id) = true
        · rw [if_pos hid]; exact h a0 ha0
        · rw [if_neg hid]; exact h a0 ha0

/-- Any operation sequence preserves duplicate-freeness of album
memberships. -/
theorem run_preserves_albumsNodup (s : LibraryState) (ops : List Op)
    (h : albumsNodup s) : albumsNodup (run s ops) := by
  induction ops generalizing s with
  | nil => exact h
  | cons op rest ih => exact ih (step s op) (step_preserves_albumsNodup s op h)

/-- C10: in every state reachable from the initial state via the library
operations (album creation, membership toggles, cover setting and the rest),
every manual album's `mediaIds` list is duplicate-free. -/
theorem c10_album_mediaIds_nodup (media0 : List MediaItem) (ops : List Op)
    (a : ManualAlbum) (h : a ∈ (run (initState media0) ops).manualAlbums) :
    a.mediaIds.Nodup :=
  run_preserves_albumsNodup (initState media0) ops
    (fun _ ha => absurd ha (List.not_mem_nil _)) a h

/-- C10 (witness): the album reached by create-then-set-cover has
duplicate-free membership. -/
theorem c10_album_mediaIds_nodup_witness : coverAlbum1.mediaIds.Nodup :=
  c10_album_mediaIds_nodup [] [Op.create 1, Op.setCover "m5"] coverAlbum1
    (by decide)

/-- The loop-built buckets are exactly the per-bucket filters of the input. -/
theorem bucketsFor_eq (ts : Int) (items : List MediaItem) :
    bucketsFor ts items =
      (bucketItems ts items GroupKey.today,
       bucketItems ts items GroupKey.thisWeek,
       bucketItems ts items GroupKey.earlier) := by
  induction items with
  | nil => rfl
  | cons m rest ih =>
    by_cases h1 : jsGE m.createdAt ts
    · have hb : bucketOf ts m = GroupKey.today := by simp [bucketOf, h1]
      simp [bucketsFor, ih, bucketItems, List.filter_cons, hb, h1]
    · by_cases h2 : jsGE m.createdAt (ts - weekMs)
      · have hb : bucketOf ts m = GroupKey.thisWeek := by simp [bucketOf, h1, h2]
        simp [bucketsFor, ih, bucketItems, List.filter_cons, hb, h1, h2]
      · have hb : bucketOf ts m = GroupKey.earlier := by simp [bucketOf, h1, h2]
        simp [bucketsFor, ih, bucketItems, List.filter_cons, hb, h1, h2]

/-- Unfolding of `groupMedia` through the filter characterisation of its
buckets. -/
theorem groupMedia_eq_filters (ts : Int) (items : List MediaItem) :
    groupMedia ts items =
      (if (bucketItems ts items GroupKey.today).isEmpty then []
        else [⟨GroupKey.today, bucketItems ts items GroupKey.today⟩]) ++
      (if (bucketItems ts items GroupKey.thisWeek).isEmpty then []
        else [⟨GroupKey.thisWeek, bucketItems ts items GroupKey.thisWeek⟩]) ++
      (if (bucketItems ts items GroupKey.earlier).isEmpty then []
        else [⟨GroupKey.earlier, bucketItems ts items GroupKey.earlier⟩]) := by
  simp only [groupMedia, bucketsFor_eq]

/-- Membership in an emitted bucket of `groupMedia`: an item appears under key
`k` exactly when it is an input item whose chosen bucket is `k`. -/
theorem mem_groupMedia (ts : Int) (items : List MediaItem) (k : GroupKey)
    (m : MediaItem) :
    (∃ g ∈ groupMedia ts items, g.group = k ∧ m ∈ g.items)
      ↔ m ∈ items ∧ bucketOf ts m = k := by
  have hmem : ∀ k', m ∈ bucketItems ts items k' ↔
      (m ∈ items ∧ bucketOf ts m = k') := by
    intro k'
    simp [bucketItems, List.mem_filter]
  rw [groupMedia_eq_filters]
  constructor
  · rintro ⟨g, hg, hgk, hm⟩
    rw [List.mem_append, List.mem_append] at hg
    rcases hg with (hg | hg) | hg
    all_goals
      split at hg
      · exact absurd hg (List.not_mem_nil _)
      · rw [List.mem_singleton] at hg
        subst hg
        refine ⟨((hmem _).mp hm).1, ?_⟩
        rw [← hgk]
        exact ((hmem _).mp hm).2
  · rintro ⟨hmi, hbk⟩
    have hm : m ∈ bucketItems ts items k := (hmem k).mpr ⟨hmi, hbk⟩
    have hne : ¬((bucketItems ts items k).isEmpty = true) := by
      rw [List.isEmpty_iff]
      exact List.ne_nil_of_mem hm
    cases k with
    | today =>
      refine ⟨⟨GroupKey.today, bucketItems ts items GroupKey.today⟩, ?_, rfl, hm⟩
      rw [List.mem_append, List.mem_append, if_neg hne]
      exact Or.inl (Or.inl (List.mem_singleton.mpr rfl))
    | thisWeek =>
      refine ⟨⟨GroupKey.thisWeek, bucketItems ts items GroupKey.thisWeek⟩, ?_,
        rfl, hm⟩
      rw [List.mem_append, List.mem_append, if_neg hne]
      exact Or.inl (Or.inr (List.mem_singleton.mpr rfl))
    | earlier =>
      refine ⟨⟨GroupKey.earlier, bucketItems ts items GroupKey.earlier⟩, ?_,
        rfl, hm⟩
      rw [List.mem_append, List.mem_append, if_neg hne]
      exact Or.inr (List.mem_singleton.mpr rfl)

/-- Concatenating the emitted buckets recovers the three per-bucket filters. -/
theorem flatMap_groupMedia (ts : Int) (items : List MediaItem) :
    (groupMedia ts items).flatMap GroupedMedia.items =
      bucketItems ts items GroupKey.today ++
      bucketItems ts items GroupKey.thisWeek ++
      bucketItems ts items GroupKey.earlier := by
  have hone : ∀ (k : GroupKey) (l : List MediaItem),
      ((if l.isEmpty then ([] : List GroupedMedia)
        else [⟨k, l⟩]).flatMap GroupedMedia.items) = l := by
    intro k l
    split
    · rename_i hl
      rw [List.isEmpty_iff] at hl
      rw [hl]
      rfl
    · simp
  rw [groupMedia_eq_filters, List.flatMap_append, List.flatMap_append,
    hone, hone, hone]

/-- Occurrence count of a record inside one bucket filter. -/
theorem count_bucketItems (ts : Int) (items : List MediaItem) (k : GroupKey)
    (a : MediaItem) :
    (bucketItems ts items k).count a =
      if bucketOf ts a = k then items.count a else 0 := by
  by_cases hk : bucketOf ts a = k
  · rw [if_pos hk]
    simp only [bucketItems]
    exact List.count_filter (by simp [hk])
  · rw [if_neg hk]
    rw [List.count_eq_zero]
    intro hmem
    simp only [bucketItems, List.mem_filter] at hmem
    exact hk (by simpa using hmem.2)

/-- C5: for every reference instant and every input list, `groupMedia` places
each record in exactly one emitted bucket; a record with a parsed timestamp `t`
is in Today iff `todayStart ≤ t`, in This week iff
`todayStart - 7 days ≤ t < todayStart`, and in Earlier iff
`t < todayStart - 7 days`; the concatenation of the emitted buckets is a
permutation of the input; empty buckets are omitted; and the emitted buckets
appear in the fixed order Today, This week, Earlier. -/
theorem c5_bucket_partition (ts : Int) (items : List MediaItem) :
    (∀ m ∈ items, ∃! k : GroupKey,
        ∃ g ∈ groupMedia ts items, g.group = k ∧ m ∈ g.items)
    ∧ (∀ m ∈ items, ∀ t : Int, m.createdAt = some t →
        ((∃ g ∈ groupMedia ts items, g.group = GroupKey.today ∧ m ∈ g.items)
            ↔ ts ≤ t)
        ∧ ((∃ g ∈ groupMedia ts items,
              g.group = GroupKey.thisWeek ∧ m ∈ g.items)
            ↔ (ts - weekMs ≤ t ∧ t < ts))
        ∧ ((∃ g ∈ groupMedia ts items,
              g.group = GroupKey.earlier ∧ m ∈ g.items)
            ↔ t < ts - weekMs))
    ∧ ((groupMedia ts items).flatMap GroupedMedia.items).Perm items
    ∧ (∀ g ∈ groupMedia ts items, g.items ≠ [])
    ∧ ((groupMedia ts items).map GroupedMedia.group).Sublist
        [GroupKey.today, GroupKey.thisWeek, GroupKey.earlier] := by
  have hwpos : (0 : Int) < weekMs := by norm_num [weekMs]
  refine ⟨?_, ?_, ?_, ?_, ?_⟩
  · intro m hm
    refine ⟨bucketOf ts m, (mem_groupMedia ts items _ m).mpr ⟨hm, rfl⟩, ?_⟩
    intro k hk
    exact ((mem_groupMedia ts items k m).mp hk).2.symm
  · intro m hm t ht
    have hkey : bucketOf ts m =
        (if ts ≤ t then GroupKey.today
         else if ts - weekMs ≤ t then GroupKey.thisWeek
         else GroupKey.earlier) := by
      simp [bucketOf, jsGE, ht]
    refine ⟨?_, ?_, ?_⟩
    · rw [mem_groupMedia]
      simp only [hm, true_and, hkey]
      split_ifs with h1 h2 <;> simp <;> omega
    · rw [mem_groupMedia]
      simp only [hm, true_and, hkey]
      split_ifs with h1 h2 <;> simp <;> omega
    · rw [mem_groupMedia]
      simp only [hm, true_and, hkey]
      split_ifs with h1 h2 <;> simp <;> omega
  · rw [List.perm_iff_count]
    intro a
    rw [flatMap_groupMedia, List.count_append, List.count_append,
      count_bucketItems, count_bucketItems, count_bucketItems]
    cases hk : bucketOf ts a <;> simp [hk]
  · intro g hg
    rw [groupMedia_eq_filters, List.mem_append, List.mem_append] at hg
    rcases hg with (hg | hg) | hg
    all_goals
      split at hg
      · exact absurd hg (List.not_mem_nil _)
      · rename_i hne
        rw [List.mem_singleton] at hg
        subst hg
        intro hnil
        exact hne (List.isEmpty_iff.mpr hnil)
  · rw [groupMedia_eq_filters, List.map_append, List.map_append]
    split_ifs <;> simp

/-- C9: the bucketizer is total — every input record, including one whose
`createdAt` failed to parse, lands in some emitted bucket; a record with an
unparseable timestamp lands in the Earlier bucket. -/
theorem c9_bucketizer_total (ts : Int) (items : List MediaItem)
    (m : MediaItem) (h : m ∈ items) :
    (∃ g ∈ groupMedia ts items, m ∈ g.items)
    ∧ (m.createdAt = none →
        ∃ g ∈ groupMedia ts items, g.group = GroupKey.earlier ∧ m ∈ g.items) := by
  constructor
  · obtain ⟨g, hg, -, hm⟩ :=
      (mem_groupMedia ts items (bucketOf ts m) m).mpr ⟨h, rfl⟩
    exact ⟨g, hg, hm⟩
  · intro hnone
    exact (mem_groupMedia ts items GroupKey.earlier m).mpr
      ⟨h, by simp [bucketOf, jsGE, hnone]⟩

/-- C9 (witness): a record with an Invalid-Date timestamp is still bucketed,
into Earlier. -/
theorem c9_bucketizer_total_witness :
    ∃ g ∈ groupMedia 0 [badItem], g.group = GroupKey.earlier ∧ badItem ∈ g.items :=
  (c9_bucketizer_total 0 [badItem] badItem (by decide)).2 rfl

/-- C5 (witness): on a single record timestamped exactly at the reference
instant, the boundary is inclusive on the Today side. -/
theorem c5_bucket_partition_witness :
    ∃ g ∈ groupMedia 0 [boundaryItem],
      g.group = GroupKey.today ∧ boundaryItem ∈ g.items :=
  (((c5_bucket_partition 0 [boundaryItem]).2.1 boundaryItem (by decide) 0
      rfl).1).mpr (by decide)

end PrivatePixel
